import Mathlib

/-!
Verification development for the Arrow alert-processing core
(`logic/alert_data/processing.py`, `logic/alert_data/filters.py`,
`models/filters.py`).

Modelling conventions (shallow embedding):
* Python strings are lists of Unicode code points (`PyStr := List ℕ`).
  The casing and whitespace operations (`str.lower`, `str.upper`,
  `str.title`, `str.isupper`, `str.islower`, `str.istitle`, `str.strip`)
  are embedded with their ASCII semantics, which covers every token this
  code base manipulates (`buy`, `sell`, `exit` and casing variants).
* Python floats are embedded as exact rationals `ℚ` (the profit arithmetic
  in the source involves only finitely many multiplications/additions and
  the claims are about exact expected values).
* pandas DataFrames are embedded as a column-name list plus a list of rows,
  each row an association list from column name to cell; a cell is either
  numeric or a string.  The DatetimeIndex is embedded by keeping rows in
  ascending index order (all claim statements concern streams already
  sorted ascending, as the spec requires), so positional and label slicing
  coincide; timestamps are embedded as integers (ordered instants).
* Python exceptions are `Except PyErr`; a raised KeyError / ValueError /
  TypeError is an `Except.error`.
-/

/-- Code points of a Python string. -/
abbrev PyStr := List Nat

/-- ASCII uppercase letter test (as used on the tokens of this code base). -/
def isUpperC (c : Nat) : Bool := 65 ≤ c && c ≤ 90

/-- ASCII lowercase letter test. -/
def isLowerC (c : Nat) : Bool := 97 ≤ c && c ≤ 122

/-- Cased character (ASCII letter). -/
def isAlphaC (c : Nat) : Bool := isUpperC c || isLowerC c

/-- Python whitespace characters stripped by `str.strip()` (ASCII subset). -/
def isSpaceC (c : Nat) : Bool := c == 32 || c == 9 || c == 10 || c == 13 || c == 11 || c == 12

/-- Lowercase a character, ASCII `str.lower` semantics. -/
def lowerC (c : Nat) : Nat := if isUpperC c then c + 32 else c

/-- Uppercase a character, ASCII `str.upper` semantics. -/
def upperC (c : Nat) : Nat := if isLowerC c then c - 32 else c

/-- Embeds `str.lower()`. -/
def lowerStr (s : PyStr) : PyStr := s.map lowerC

/-- Embeds `str.upper()`. -/
def upperStr (s : PyStr) : PyStr := s.map upperC

/-- Embeds `str.isupper()`: at least one cased character and every cased
character uppercase. -/
def isUpperStr (s : PyStr) : Bool := s.any isAlphaC && s.all (fun c => !isAlphaC c || isUpperC c)

/-- Embeds `str.islower()`. -/
def isLowerStr (s : PyStr) : Bool := s.any isAlphaC && s.all (fun c => !isAlphaC c || isLowerC c)

/-- Scanner for `str.istitle()`: the boolean argument records whether the
previous character was cased. -/
def isTitleAux : Bool → PyStr → Bool
  | _, [] => true
  | prevCased, c :: rest =>
    if isUpperC c then !prevCased && isTitleAux true rest
    else if isLowerC c then prevCased && isTitleAux true rest
    else isTitleAux false rest

/-- Embeds `str.istitle()`: uppercase only after uncased, lowercase only
after cased, and at least one cased character. -/
def isTitleStr (s : PyStr) : Bool := s.any isAlphaC && isTitleAux false s

/-- Scanner for `str.title()`. -/
def titleAux : Bool → PyStr → PyStr
  | _, [] => []
  | prevCased, c :: rest =>
    if isAlphaC c then (if prevCased then lowerC c else upperC c) :: titleAux true rest
    else c :: titleAux false rest

/-- Embeds `str.title()`: first letter of each word uppercased, following
letters lowercased. -/
def titleStr (s : PyStr) : PyStr := titleAux false s

/-- Embeds `str.strip()`: drop leading and trailing whitespace. -/
def stripStr (s : PyStr) : PyStr := ((s.dropWhile isSpaceC).reverse.dropWhile isSpaceC).reverse

/-- The constant `BUY = 'buy'` of `constants.py`. -/
def buyStr : PyStr := [98, 117, 121]

/-- The constant `SELL = 'sell'` of `constants.py`. -/
def sellStr : PyStr := [115, 101, 108, 108]

/-- The constant `EXIT = 'exit'` of `constants.py`. -/
def exitStr : PyStr := [101, 120, 105, 116]

/-- Token normalisation used throughout `processing.py`:
`.astype(str).str.strip().str.lower()`. -/
def normTok (s : PyStr) : PyStr := lowerStr (stripStr s)

section Flipper

/-- Embeds `_match_case` of `apply_flips`. -/
def matchCase (template newWord : PyStr) : PyStr :=
  if isUpperStr template then upperStr newWord
  else if isLowerStr template then lowerStr newWord
  else if isTitleStr template then titleStr newWord
  else newWord

/-- Embeds `_flip_token` of `apply_flips` with arbitrary buy/sell tokens and
`strip_whitespace=True` (the default).  The `pd.isna` branch is not modelled:
cells are strings here.  Note the function returns the *stripped* token when
no swap applies. -/
def flipTokenWith (buyTok sellTok : PyStr) (x : PyStr) : PyStr :=
  let t := stripStr x
  let tl := lowerStr t
  if tl = lowerStr buyTok then matchCase t sellTok
  else if tl = lowerStr sellTok then matchCase t buyTok
  else t

/-- `_flip_token` at the default tokens `BUY`/`SELL`. -/
def flipToken (x : PyStr) : PyStr := flipTokenWith buyStr sellStr x

/-- Embeds `apply_flips` on the trade-type column (the source copies the
DataFrame and maps `_flip_token` over `df[signal_col]`; other columns are
untouched, so the column is the whole content of the transform). -/
def apply_flips (col : List PyStr) : List PyStr := col.map flipToken

end Flipper

section Trimmer

/-- Position of the last element satisfying `p` (the source computes
`np.flatnonzero(...)[-1]`). -/
def lastIdx? (p : α → Bool) (l : List α) : Option Nat :=
  match l.reverse.findIdx? p with
  | none => none
  | some k => some (l.length - 1 - k)

/-- Core of `trim_to_closed_trades` on an ordered row sequence: first row
satisfying the entry predicate, then the last row at or after it satisfying
the exit predicate, inclusive slice between them; empty if either is
missing.  (`work.loc[first_entry_idx:last_exit_idx]` on the sorted,
ascending index is this inclusive positional slice.) -/
def trimWith (pe px : α → Bool) (l : List α) : List α :=
  match l.findIdx? pe with
  | none => []
  | some i =>
    let post := l.drop i
    match lastIdx? px post with
    | none => []
    | some j => post.take (j + 1)

/-- Entry test of `trim_to_closed_trades`: normalised token in the
normalised entry set. -/
def isEntryOf (entryVals : List PyStr) (s : PyStr) : Bool :=
  decide (normTok s ∈ entryVals.map normTok)

/-- Exit test of `trim_to_closed_trades`. -/
def isExitOf (exitVal : PyStr) (s : PyStr) : Bool :=
  decide (normTok s = normTok exitVal)

/-- Embeds `trim_to_closed_trades` on rows of any shape, given the
projection `tok` reading the signal column (`sort_by_index` resorts an
already ascending stream, hence is the identity here). -/
def trim_to_closed_trades (tok : α → PyStr) (entryVals : List PyStr) (exitVal : PyStr)
    (l : List α) : List α :=
  trimWith (fun a => isEntryOf entryVals (tok a)) (fun a => isExitOf exitVal (tok a)) l

end Trimmer

section ProfitEngine

/-- One row as seen by the scan loop of `add_trade_profit`: price and
quantity already extracted as floats, plus the raw signal token. -/
structure TRow where
  price : ℚ
  qty : ℚ
  tok : PyStr
deriving DecidableEq

/-- Open-position state of `add_trade_profit` (`in_pos`, `direction`,
`entry_price`, `entry_qty`); the flat state is `none`. -/
structure Pos where
  direction : Int
  entryPrice : ℚ
  entryQty : ℚ
deriving DecidableEq

/-- Configuration of `add_trade_profit`. -/
structure ProfitCfg where
  entryMap : List (PyStr × Int)
  exitVal : PyStr
  multiplier : ℚ
  delta : ℚ
  feePerTrade : ℚ
  feePerUnit : ℚ

/-- The default `entry_values` mapping `{BUY: +1, SELL: -1}`. -/
def defaultEntryMap : List (PyStr × Int) := [(buyStr, 1), (sellStr, -1)]

/-- Lookup in `entry_dir_map = {k.strip().lower(): int(v) ...}`; the list is
reversed before lookup because later duplicate keys win in a Python dict. -/
def entryDir (entryMap : List (PyStr × Int)) (t : PyStr) : Option Int :=
  ((entryMap.map (fun kv => (normTok kv.1, kv.2))).reverse).lookup t

/-- One iteration of the scan loop of `add_trade_profit`: on the current
state and row, produce the next state and the profit written for that row
(`none` embeds the NaN left in `profits[i]`). -/
def profitStep (cfg : ProfitCfg) (st : Option Pos) (r : TRow) : Option Pos × Option ℚ :=
  let token := normTok r.tok
  match st with
  | none =>
    match entryDir cfg.entryMap token with
    | some d => (some ⟨d, r.price, r.qty⟩, none)
    | none => (none, none)
  | some p =>
    match entryDir cfg.entryMap token with
    | some _ => (some p, none)
    | none =>
      if token = normTok cfg.exitVal then
        (none,
         some (((r.price - p.entryPrice) * (p.direction : ℚ) * (p.entryQty * cfg.multiplier)
                - (cfg.feePerTrade + p.entryQty * cfg.feePerUnit)) * cfg.delta))
      else (some p, none)

/-- The whole scan: state/profit pair after each row. -/
def profitScan (cfg : ProfitCfg) : Option Pos → List TRow → List (Option Pos × Option ℚ)
  | _, [] => []
  | st, r :: rs => profitStep cfg st r :: profitScan cfg (profitStep cfg st r).1 rs

/-- The `profits` array of `add_trade_profit` (NaN as `none`). -/
def profitsOf (cfg : ProfitCfg) (l : List TRow) : List (Option ℚ) :=
  (profitScan cfg none l).map Prod.snd

/-- The machine state after consuming a list of rows. -/
def runState (cfg : ProfitCfg) (st : Option Pos) (l : List TRow) : Option Pos :=
  l.foldl (fun s r => (profitStep cfg s r).1) st

/-- Embeds `pandas.Series.cumsum()` with its default `skipna=True`: NaN
positions stay NaN, other positions receive the sum of the non-NaN values
so far.  `acc` is the running sum. -/
def cumsumSkipNA (acc : ℚ) : List (Option ℚ) → List (Option ℚ)
  | [] => []
  | none :: rest => none :: cumsumSkipNA acc rest
  | some x :: rest => some (acc + x) :: cumsumSkipNA (acc + x) rest

/-- Embeds `add_trade_profit` on extracted rows: the pair of the `profit`
column and the `rProfit` column appended to the output copy. -/
def add_trade_profit (cfg : ProfitCfg) (l : List TRow) : List (Option ℚ) × List (Option ℚ) :=
  let ps := profitsOf cfg l
  (ps, cumsumSkipNA 0 ps)

/-- The configuration with the source's default `entry_values`/`exit_value`
and explicit numeric parameters. -/
def defaultCfg (multiplier delta feeT feeU : ℚ) : ProfitCfg :=
  ⟨defaultEntryMap, exitStr, multiplier, delta, feeT, feeU⟩

end ProfitEngine

section TableModel

/-- A pandas cell: numeric or string. -/
inductive Cell where
  | num (q : ℚ)
  | str (s : PyStr)
deriving DecidableEq

/-- A DataFrame row: association list from column name to cell. -/
abbrev TblRow := List (PyStr × Cell)

/-- A DataFrame: column names plus rows, kept in ascending index order. -/
structure Table where
  cols : List PyStr
  rows : List TblRow
deriving DecidableEq

/-- Cell lookup in a row. -/
def getCell (r : TblRow) (c : PyStr) : Option Cell := r.lookup c

/-- Raised Python exceptions. -/
inductive PyErr where
  | keyError (col : PyStr)
  | valueError
  | typeError
deriving DecidableEq

/-- Value a cell contributes to `.astype(str)` token comparison: strings
are themselves; a missing cell is NaN, whose string form is the literal
string `nan` (never an entry/exit token); a numeric cell stringifies to its
decimal representation, which likewise never matches a trade token and is
embedded as the placeholder string `#`. -/
def cellTok : Option Cell → PyStr
  | some (.str s) => s
  | some (.num _) => [35]
  | none => [110, 97, 110]

/-- Value a cell contributes to `.astype(float)`: numeric cells only (a
string cell or missing cell in a price/quantity column is outside every
claim's inputs and is modelled as extraction failure). -/
def cellFloat : Option Cell → Option ℚ
  | some (.num q) => some q
  | _ => none

/-- Extract a whole column as floats. -/
def colFloat (rows : List TblRow) (c : PyStr) : Option (List ℚ) :=
  match rows with
  | [] => some []
  | r :: rs =>
    match cellFloat (getCell r c), colFloat rs c with
    | some q, some qs => some (q :: qs)
    | _, _ => none

/-- The column-name constants of `constants.py`: `PRICE = 'price'`. -/
def priceCol : PyStr := [112, 114, 105, 99, 101]

/-- `TRADE_TYPE = 'trade_type'`. -/
def tradeTypeCol : PyStr := [116, 114, 97, 100, 101, 95, 116, 121, 112, 101]

/-- `QUANTITY = 'quantity'`. -/
def quantityCol : PyStr := [113, 117, 97, 110, 116, 105, 116, 121]

/-- `NAME = 'Name'`. -/
def nameCol : PyStr := [78, 97, 109, 101]

/-- `TIMESTAMP = 'timestamp'`. -/
def timestampCol : PyStr := [116, 105, 109, 101, 115, 116, 97, 109, 112]

/-- Embeds the column handling of `add_trade_profit` on a DataFrame: the
three leading missing-column guards (KeyError), then extraction of prices,
quantities (all ones when `qty_col is None`) and signal tokens, then the
scan; result is the pair of new columns.  `sort_by_index` re-sorts an
already ascending frame and is the identity here. -/
def addTradeProfitTable (cfg : ProfitCfg) (pCol sCol : PyStr) (qCol : Option PyStr)
    (t : Table) : Except PyErr (List (Option ℚ) × List (Option ℚ)) :=
  if pCol ∉ t.cols then .error (.keyError pCol)
  else if sCol ∉ t.cols then .error (.keyError sCol)
  else
    match qCol with
    | some qc =>
      if qc ∉ t.cols then .error (.keyError qc)
      else
        match colFloat t.rows pCol with
        | none => .error .valueError
        | some prices =>
          match colFloat t.rows qc with
          | none => .error .valueError
          | some qtys =>
            let rows := ((t.rows.zip prices).zip qtys).map
              (fun rpq => TRow.mk rpq.1.2 rpq.2 (cellTok (getCell rpq.1.1 sCol)))
            .ok (add_trade_profit cfg rows)
    | none =>
      match colFloat t.rows pCol with
      | none => .error .valueError
      | some prices =>
        let rows := (t.rows.zip prices).map
          (fun rp => TRow.mk rp.2 1 (cellTok (getCell rp.1 sCol)))
        .ok (add_trade_profit cfg rows)

end TableModel

section Filters

/-- The timestamp attributes a DatetimeIndex entry exposes to the four
filters of `filters.py`: wall-clock time of day in seconds
(`df.index.time`; `datetime.time` comparison is lexicographic on
(h, m, s), i.e. numeric on seconds since midnight), weekday
(`df.index.weekday`, Mon=0..Sun=6), day of month (`df.index.day`), and the
normalized calendar date as an ordinal (`df.index.normalize()`). -/
structure Ts where
  tod : Nat
  weekday : Nat
  day : Nat
  dateOrd : Int
deriving DecidableEq

/-- Embeds `_parse_hhmm` composed with the `datetime.time` constructor: a
pair (hour, minute) is valid iff hour ≤ 23 and minute ≤ 59 (otherwise
`time()` raises ValueError, as exercised by the repo's tests); the result
is the time of day in seconds.  (Splitting the textual `HH:MM` form is not
modelled; a malformed string likewise raises ValueError.) -/
def parseHHMM (hm : Nat × Nat) : Except PyErr Nat :=
  if hm.1 ≤ 23 ∧ hm.2 ≤ 59 then .ok (hm.1 * 3600 + hm.2 * 60) else .error .valueError

/-- Embeds `filter_by_time_of_day`: inclusive clock-time range, wrapping
past midnight when start > end. -/
def filter_by_time_of_day (df : List Ts) (startHM endHM : Nat × Nat) :
    Except PyErr (List Ts) := do
  let s ← parseHHMM startHM
  let e ← parseHHMM endHM
  if s ≤ e then
    pure (df.filter (fun r => decide (s ≤ r.tod ∧ r.tod ≤ e)))
  else
    pure (df.filter (fun r => decide (s ≤ r.tod ∨ r.tod ≤ e)))

/-- A member of the `days` argument: a weekday name or an integer. -/
inductive DayArg where
  | name (s : PyStr)
  | int (i : Int)
deriving DecidableEq

/-- The `_DAY_NAME_TO_NUM` table of `filters.py` (keys are lowercase). -/
def dayNameToNum : List (PyStr × Nat) :=
  [([109, 111, 110, 100, 97, 121], 0), ([109, 111, 110], 0),
   ([116, 117, 101, 115, 100, 97, 121], 1), ([116, 117, 101], 1), ([116, 117, 101, 115], 1),
   ([119, 101, 100, 110, 101, 115, 100, 97, 121], 2), ([119, 101, 100], 2),
   ([116, 104, 117, 114, 115, 100, 97, 121], 3), ([116, 104, 117], 3),
   ([116, 104, 117, 114], 3), ([116, 104, 117, 114, 115], 3),
   ([102, 114, 105, 100, 97, 121], 4), ([102, 114, 105], 4),
   ([115, 97, 116, 117, 114, 100, 97, 121], 5), ([115, 97, 116], 5),
   ([115, 117, 110, 100, 97, 121], 6), ([115, 117, 110], 6)]

/-- Resolve one member of `days` to a weekday number, raising ValueError on
an out-of-range integer or unrecognised name. -/
def resolveDay (d : DayArg) : Except PyErr Nat :=
  match d with
  | .int i => if i < 0 ∨ 6 < i then .error .valueError else .ok i.toNat
  | .name s =>
    match dayNameToNum.lookup (lowerStr (stripStr s)) with
    | none => .error .valueError
    | some n => .ok n

/-- Embeds `filter_by_days_of_week`. -/
def filter_by_days_of_week (df : List Ts) (days : List DayArg) :
    Except PyErr (List Ts) := do
  let wanted ← days.mapM resolveDay
  pure (df.filter (fun r => decide (r.weekday ∈ wanted)))

/-- Embeds `filter_by_weeks_of_month`: empty or out-of-range week sets
raise ValueError; the bucket is `((day - 1) // 7) + 1`. -/
def filter_by_weeks_of_month (df : List Ts) (weeks : List Int) :
    Except PyErr (List Ts) :=
  if weeks = [] then .error .valueError
  else if weeks.any (fun w => decide (w < 1 ∨ 5 < w)) then .error .valueError
  else .ok (df.filter (fun r => decide (((r.day - 1) / 7 + 1 : Nat) ∈ weeks.map Int.toNat)))

/-- Embeds `filter_by_date_range`: bounds already normalized to calendar
dates (ordinals); inverted ranges raise ValueError; inclusive comparison of
normalized dates. -/
def filter_by_date_range (df : List Ts) (startD endD : Int) :
    Except PyErr (List Ts) :=
  if endD < startD then .error .valueError
  else .ok (df.filter (fun r => decide (startD ≤ r.dateOrd ∧ r.dateOrd ≤ endD)))

/-- The keyword arguments of `filter_alert_data`; a `none` field means the
key is absent from `kwargs`. -/
structure Kwargs where
  start_time : Option (Nat × Nat) := none
  end_time : Option (Nat × Nat) := none
  days : Option (List DayArg) := none
  weeks : Option (List Int) := none
  start_date : Option Int := none
  end_date : Option Int := none
deriving DecidableEq

/-- Embeds `filter_alert_data` exactly as written: `output` starts as a
copy of `df`, and each requested filter is applied to `df` — the original
argument, not the previous `output` — before being assigned to `output`. -/
def filter_alert_data (df : List Ts) (kw : Kwargs) : Except PyErr (List Ts) := do
  let output := df
  let output ←
    match kw.start_time, kw.end_time with
    | some s, some e => filter_by_time_of_day df s e
    | _, _ => pure output
  let output ←
    match kw.days with
    | some ds => filter_by_days_of_week df ds
    | none => pure output
  let output ←
    match kw.weeks with
    | some ws => filter_by_weeks_of_month df ws
    | none => pure output
  let output ←
    match kw.start_date, kw.end_date with
    | some s, some e => filter_by_date_range df s e
    | _, _ => pure output
  pure output

/-- Modelled from the spec: the composite filter of §4.4, which applies the
requested subset in the fixed order time-of-day, weekday, week-of-month,
date-range, *each to the previous stage's output* (sequential narrowing,
implicit logical AND).  Stated for comparison with `filter_alert_data`. -/
def filterAlertDataSeq (df : List Ts) (kw : Kwargs) : Except PyErr (List Ts) := do
  let output := df
  let output ←
    match kw.start_time, kw.end_time with
    | some s, some e => filter_by_time_of_day output s e
    | _, _ => pure output
  let output ←
    match kw.days with
    | some ds => filter_by_days_of_week output ds
    | none => pure output
  let output ←
    match kw.weeks with
    | some ws => filter_by_weeks_of_month output ws
    | none => pure output
  let output ←
    match kw.start_date, kw.end_date with
    | some s, some e => filter_by_date_range output s e
    | _, _ => pure output
  pure output

/-- Embeds the validated `FilterParams` model after its per-field
validators ran: times are (hour, minute) pairs already matched against
`HH:MM` and range-checked, dates are calendar ordinals.  A `none` field was
supplied as `None`. -/
structure FilterParams where
  start_time : Option (Nat × Nat) := none
  end_time : Option (Nat × Nat) := none
  days : Option (List DayArg) := none
  weeks : Option (List Int) := none
  start_date : Option Int := none
  end_date : Option Int := none
deriving DecidableEq

/-- Embeds the model validator `_check_time_and_date_consistency`: raise
unless start_time and end_time are supplied together; raise if both dates
are supplied with end before start.  (`if sd and ed` — date objects are
always truthy, `None` is falsy.) -/
def checkTimeAndDateConsistency (p : FilterParams) : Except PyErr FilterParams :=
  if p.start_time.isSome ≠ p.end_time.isSome then .error .valueError
  else
    match p.start_date, p.end_date with
    | some sd, some ed => if ed < sd then .error .valueError else .ok p
    | _, _ => .ok p

/-- Embeds `FilterParams.to_filter_kwargs`: each pair of bounds is emitted
only when both halves are present; `days`/`weeks` are emitted when
present. -/
def toFilterKwargs (p : FilterParams) : Kwargs :=
  { start_time := if p.start_time.isSome ∧ p.end_time.isSome then p.start_time else none
    end_time := if p.start_time.isSome ∧ p.end_time.isSome then p.end_time else none
    days := p.days
    weeks := p.weeks
    start_date := if p.start_date.isSome ∧ p.end_date.isSome then p.start_date else none
    end_date := if p.start_date.isSome ∧ p.end_date.isSome then p.end_date else none }

end Filters

section Splitter

/-- One raw alert row as fed to `_process_and_split_data`: the `Name`
column, the `Time` column (modelled as an already-parseable ordered
instant), and the JSON object decoded from `Description`
(`extract_json_from_description` substitutes `{}` for malformed or empty
JSON, so every payload is a decoded object here). -/
structure RawRow where
  name : PyStr
  time : Int
  payload : List (PyStr × Cell)
deriving DecidableEq

/-- Union of payload keys in first-appearance order, as produced by
`pd.json_normalize`; the `Name`/`timestamp` columns are written afterwards
and therefore excluded here. -/
def unionKeys (rows : List RawRow) : List PyStr :=
  rows.foldl
    (fun acc r => acc ++ ((r.payload.map Prod.fst).filter (fun k => decide (k ∉ acc)))) []

/-- Embeds `extract_json_from_description` on decoded rows: normalize the
payloads into columns, then attach `Name` and a `timestamp` column from
`Time` (overwriting payload keys of those names, as column assignment
does). -/
def extract_json_from_description (rows : List RawRow) : Table :=
  { cols := ((unionKeys rows).filter (fun k => decide (k ≠ nameCol ∧ k ≠ timestampCol)))
      ++ [nameCol, timestampCol]
    rows := rows.map (fun r =>
      (r.payload.filter (fun kv => decide (kv.1 ≠ nameCol ∧ kv.1 ≠ timestampCol)))
        ++ [(nameCol, .str r.name), (timestampCol, .num (r.time : ℚ))]) }

/-- Sort key of `format_timestamp_column_and_set_as_index`: the parsed
timestamp cell. -/
def tsKey (r : TblRow) : ℚ :=
  match cellFloat (getCell r timestampCol) with
  | some q => q
  | none => 0

/-- Insertion into a list sorted ascending by `tsKey` (stable). -/
def insertByTs (r : TblRow) : List TblRow → List TblRow
  | [] => [r]
  | x :: xs => if tsKey r < tsKey x then r :: x :: xs else x :: insertByTs r xs

/-- Stable ascending sort by timestamp. -/
def sortByTs : List TblRow → List TblRow
  | [] => []
  | x :: xs => insertByTs x (sortByTs xs)

/-- Embeds `format_timestamp_column_and_set_as_index`: KeyError when the
timestamp column is missing, else parse it, use it as the ordering key and
sort ascending.  (Writing the canonical string form back into the column is
not observable by the later stages and is not modelled.) -/
def format_timestamp_column_and_set_as_index (t : Table) : Except PyErr Table :=
  if timestampCol ∉ t.cols then .error (.keyError timestampCol)
  else .ok { t with rows := sortByTs t.rows }

/-- Embeds `trim_to_closed_trades` at the DataFrame level: KeyError when
the signal column is missing, else the row-stream trim at the default
tokens. -/
def trimToClosedTradesTable (t : Table) : Except PyErr Table :=
  if tradeTypeCol ∉ t.cols then .error (.keyError tradeTypeCol)
  else .ok { t with
    rows := trim_to_closed_trades (fun r => cellTok (getCell r tradeTypeCol))
      [buyStr, sellStr] exitStr t.rows }

/-- Embeds `clean_filterable_json_df_pipe`: extract payloads, index by
timestamp, trim to closed trades. -/
def clean_filterable_json_df_pipe (rows : List RawRow) : Except PyErr Table := do
  let t := extract_json_from_description rows
  let t ← format_timestamp_column_and_set_as_index t
  trimToClosedTradesTable t

/-- Embeds `split_data_by_name` for one group key: the rows of that
strategy (each group is copied; copies are identities here). -/
def split_data_by_name (rows : List RawRow) (name : PyStr) : List RawRow :=
  rows.filter (fun r => decide (r.name = name))

/-- Embeds `_process_and_split_data`, viewing the resulting dict as its
lookup function: a strategy name maps to its processed table when the name
occurs in the batch and the pipeline succeeded; a group whose processing
raised is omitted (logged only). -/
def _process_and_split_data (rows : List RawRow) (name : PyStr) : Option Table :=
  if split_data_by_name rows name = [] then none
  else (clean_filterable_json_df_pipe (split_data_by_name rows name)).toOption

end Splitter

deriving instance DecidableEq for Except

section ProfitTheorems

lemma entryDir_exit_none : entryDir defaultEntryMap exitStr = none := by decide

lemma normTok_exit : normTok exitStr = exitStr := by decide

lemma profitStep_entry_in_pos (cfg : ProfitCfg) (p : Pos) (r : TRow)
    (h : (entryDir cfg.entryMap (normTok r.tok)).isSome) :
    profitStep cfg (some p) r = (some p, none) := by
  cases hd : entryDir cfg.entryMap (normTok r.tok) with
  | none => rw [hd] at h; simp at h
  | some d => simp [profitStep, hd]

lemma profitStep_exit_flat (mult delta feeT feeU : ℚ) (r : TRow)
    (h : normTok r.tok = exitStr) :
    profitStep (defaultCfg mult delta feeT feeU) none r = (none, none) := by
  simp [profitStep, defaultCfg, h, entryDir_exit_none]

lemma profitStep_exit_in_pos (mult delta feeT feeU : ℚ) (p : Pos) (r : TRow)
    (h : normTok r.tok = exitStr) :
    profitStep (defaultCfg mult delta feeT feeU) (some p) r
      = (none,
         some (((r.price - p.entryPrice) * (p.direction : ℚ) * (p.entryQty * mult)
                - (feeT + p.entryQty * feeU)) * delta)) := by
  simp [profitStep, defaultCfg, h, entryDir_exit_none, normTok_exit]

lemma profitStep_entry_flat (cfg : ProfitCfg) (r : TRow) (d : Int)
    (hd : entryDir cfg.entryMap (normTok r.tok) = some d) :
    profitStep cfg none r = (some ⟨d, r.price, r.qty⟩, none) := by
  simp [profitStep, hd]

lemma runState_cons (cfg : ProfitCfg) (st : Option Pos) (r : TRow) (l : List TRow) :
    runState cfg st (r :: l) = runState cfg (profitStep cfg st r).1 l := rfl

lemma profitScan_append (cfg : ProfitCfg) (st : Option Pos) (l1 l2 : List TRow) :
    profitScan cfg st (l1 ++ l2)
      = profitScan cfg st l1 ++ profitScan cfg (runState cfg st l1) l2 := by
  induction l1 generalizing st with
  | nil => simp [profitScan, runState]
  | cons r rs ih =>
    simp only [List.cons_append, profitScan, List.cons.injEq, true_and]
    rw [runState_cons]
    exact ih ((profitStep cfg st r).1)

lemma profitScan_length (cfg : ProfitCfg) (st : Option Pos) (l : List TRow) :
    (profitScan cfg st l).length = l.length := by
  induction l generalizing st with
  | nil => rfl
  | cons r rs ih => simp [profitScan, ih]

/-- C1: on the stream [buy@100 qty 2, exit@110 qty 2] with multiplier 1,
delta 1, fee_per_trade 1, fee_per_unit 0.5, the exit row gets profit 18 and
running profit 18; appending [sell@200 qty 1, exit@195 qty 1] yields profit
3.5 on the second exit row and cumulative running profit 21.5; and in
general a closing row's profit is
((exit − entry) × direction × (entry_qty × multiplier)
 − (fee_per_trade + entry_qty × fee_per_unit)) × delta. -/
theorem add_trade_profit_examples_and_closing_formula :
    add_trade_profit (defaultCfg 1 1 1 (1/2)) [⟨100, 2, buyStr⟩, ⟨110, 2, exitStr⟩]
      = ([none, some 18], [none, some 18])
    ∧ add_trade_profit (defaultCfg 1 1 1 (1/2))
        [⟨100, 2, buyStr⟩, ⟨110, 2, exitStr⟩, ⟨200, 1, sellStr⟩, ⟨195, 1, exitStr⟩]
      = ([none, some 18, none, some (7/2)], [none, some 18, none, some (43/2)])
    ∧ ∀ (mult delta feeT feeU : ℚ) (p : Pos) (r : TRow), normTok r.tok = exitStr →
        profitStep (defaultCfg mult delta feeT feeU) (some p) r
          = (none,
             some (((r.price - p.entryPrice) * (p.direction : ℚ) * (p.entryQty * mult)
                    - (feeT + p.entryQty * feeU)) * delta)) := by
  have h1 : profitStep (defaultCfg 1 1 1 (1/2)) none ⟨100, 2, buyStr⟩
      = (some ⟨1, 100, 2⟩, none) := profitStep_entry_flat _ _ 1 (by decide)
  have h2 : profitStep (defaultCfg 1 1 1 (1/2)) (some ⟨1, 100, 2⟩) ⟨110, 2, exitStr⟩
      = (none, some (((110 - 100) * ((1 : Int) : ℚ) * (2 * 1) - (1 + 2 * (1/2))) * 1)) :=
    profitStep_exit_in_pos 1 1 1 (1/2) ⟨1, 100, 2⟩ ⟨110, 2, exitStr⟩ (by decide)
  have h3 : profitStep (defaultCfg 1 1 1 (1/2)) none ⟨200, 1, sellStr⟩
      = (some ⟨-1, 200, 1⟩, none) := profitStep_entry_flat _ _ (-1) (by decide)
  have h4 : profitStep (defaultCfg 1 1 1 (1/2)) (some ⟨-1, 200, 1⟩) ⟨195, 1, exitStr⟩
      = (none, some (((195 - 200) * ((-1 : Int) : ℚ) * (1 * 1) - (1 + 1 * (1/2))) * 1)) :=
    profitStep_exit_in_pos 1 1 1 (1/2) ⟨-1, 200, 1⟩ ⟨195, 1, exitStr⟩ (by decide)
  refine ⟨?_, ?_, fun mult delta feeT feeU p r h =>
    profitStep_exit_in_pos mult delta feeT feeU p r h⟩
  · simp only [add_trade_profit, profitsOf, profitScan, h1, h2, cumsumSkipNA, List.map]
    norm_num [defaultCfg]
  · simp only [add_trade_profit, profitsOf, profitScan, h1, h2, h3, h4, cumsumSkipNA, List.map]
    norm_num [defaultCfg]

/-- Witness for the closing-row formula of C1 at the first worked example:
long from 100 with quantity 2, exiting at 110. -/
theorem add_trade_profit_examples_and_closing_formula_witness :
    profitStep (defaultCfg 1 1 1 (1/2)) (some ⟨1, 100, 2⟩) ⟨110, 2, exitStr⟩
      = (none,
         some (((110 - 100) * ((1 : Int) : ℚ) * (2 * 1) - (1 + 2 * (1/2))) * 1)) :=
  add_trade_profit_examples_and_closing_formula.2.2 1 1 1 (1/2) ⟨1, 100, 2⟩
    ⟨110, 2, exitStr⟩ (by decide)

/-- C2: walking any ordered stream, the state holds at most one open
position (it is `none` or one `Pos`); if row `r` carries an entry token
while a position `p` is open, the state after that row is still exactly
`p` and the row receives no profit value; if row `r` carries the exit
token while flat, the state stays flat and the row receives no profit
value.  The scan entry at the row's position records both the state after
the row and the row's profit. -/
theorem single_open_position_invariant :
    ∀ (mult delta feeT feeU : ℚ) (l1 l2 : List TRow) (r : TRow) (p : Pos),
    (runState (defaultCfg mult delta feeT feeU) none l1 = some p →
     (entryDir defaultEntryMap (normTok r.tok)).isSome →
       (profitScan (defaultCfg mult delta feeT feeU) none (l1 ++ r :: l2))[l1.length]?
         = some (some p, none))
    ∧ (runState (defaultCfg mult delta feeT feeU) none l1 = none →
       normTok r.tok = exitStr →
       (profitScan (defaultCfg mult delta feeT feeU) none (l1 ++ r :: l2))[l1.length]?
         = some (none, none)) := by
  intro mult delta feeT feeU l1 l2 r p
  constructor
  · intro hst he
    rw [profitScan_append, List.getElem?_append_right (by rw [profitScan_length])]
    rw [profitScan_length, Nat.sub_self, hst]
    have hstep : profitStep (defaultCfg mult delta feeT feeU) (some p) r = (some p, none) :=
      profitStep_entry_in_pos _ p r (by simpa [defaultCfg] using he)
    simp [profitScan, hstep]
  · intro hst he
    rw [profitScan_append, List.getElem?_append_right (by rw [profitScan_length])]
    rw [profitScan_length, Nat.sub_self, hst]
    simp [profitScan, profitStep_exit_flat mult delta feeT feeU r he]

/-- Witness for C2: a duplicate entry (`sell` while long from 100) is
ignored, and an exit while flat is ignored. -/
theorem single_open_position_invariant_witness :
    (profitScan (defaultCfg 1 1 0 0) none
        [⟨100, 2, buyStr⟩, ⟨105, 3, sellStr⟩])[([⟨100, 2, buyStr⟩] : List TRow).length]?
      = some (some ⟨1, 100, 2⟩, none)
    ∧ (profitScan (defaultCfg 1 1 0 0) none [⟨105, 3, exitStr⟩])[([] : List TRow).length]?
      = some (none, none) :=
  ⟨(single_open_position_invariant 1 1 0 0 [⟨100, 2, buyStr⟩] [] ⟨105, 3, sellStr⟩
      ⟨1, 100, 2⟩).1 (by decide) (by decide),
   (single_open_position_invariant 1 1 0 0 [] [] ⟨105, 3, exitStr⟩
      ⟨1, 100, 2⟩).2 (by decide) (by decide)⟩

lemma cumsumSkipNA_getElem?_none (l : List (Option ℚ)) (acc : ℚ) (i : Nat)
    (h : l[i]? = some none) : (cumsumSkipNA acc l)[i]? = some none := by
  induction l generalizing acc i with
  | nil => simp at h
  | cons o rest ih =>
    cases o with
    | none =>
      cases i with
      | zero => simp [cumsumSkipNA]
      | succ i => simp only [List.getElem?_cons_succ] at h; simpa [cumsumSkipNA] using ih acc i h
    | some x =>
      cases i with
      | zero => simp at h
      | succ i =>
        simp only [List.getElem?_cons_succ] at h
        simpa [cumsumSkipNA] using ih (acc + x) i h

lemma cumsumSkipNA_getElem?_some (l : List (Option ℚ)) (acc : ℚ) (i : Nat) (q : ℚ)
    (h : l[i]? = some (some q)) :
    (cumsumSkipNA acc l)[i]? = some (some (acc + ((l.take (i + 1)).reduceOption).sum)) := by
  induction l generalizing acc i with
  | nil => simp at h
  | cons o rest ih =>
    cases o with
    | none =>
      cases i with
      | zero => simp at h
      | succ i =>
        simp only [List.getElem?_cons_succ] at h
        simpa [cumsumSkipNA, List.reduceOption_cons_of_none] using ih acc i h
    | some x =>
      cases i with
      | zero =>
        simp only [List.getElem?_cons_zero, Option.some.injEq] at h
        simp [cumsumSkipNA, List.reduceOption_cons_of_some]
      | succ i =>
        simp only [List.getElem?_cons_succ] at h
        have := ih (acc + x) i h
        simpa [cumsumSkipNA, List.reduceOption_cons_of_some, add_assoc] using this

/-- C8 (corrected): in the profit engine's output, `running_profit` is
present exactly where `profit` is present (on rows carrying no profit it is
the absent value NaN, not a carried-forward total), and on a row where
`profit` is present it equals the cumulative sum of the present profit
values over all rows up to and including that row (absent values
contribute zero to the accumulation). -/
theorem running_profit_defined_iff_profit_defined :
    ∀ (cfg : ProfitCfg) (rows : List TRow) (i : Nat),
    ((add_trade_profit cfg rows).1[i]? = some none →
       (add_trade_profit cfg rows).2[i]? = some none)
    ∧ (∀ q, (add_trade_profit cfg rows).1[i]? = some (some q) →
        (add_trade_profit cfg rows).2[i]?
          = some (some ((((add_trade_profit cfg rows).1.take (i + 1)).reduceOption).sum))) := by
  intro cfg rows i
  constructor
  · intro h
    exact cumsumSkipNA_getElem?_none (profitsOf cfg rows) 0 i h
  · intro q h
    have := cumsumSkipNA_getElem?_some (profitsOf cfg rows) 0 i q h
    simpa [add_trade_profit] using this

/-- Witness for C8 (corrected) on the one-trade stream
[buy@100 qty 1, exit@110 qty 1] with no fees: the entry row's running
profit is absent, the exit row's equals the sum of profits so far. -/
theorem running_profit_defined_iff_profit_defined_witness :
    (add_trade_profit (defaultCfg 1 1 0 0) [⟨100, 1, buyStr⟩, ⟨110, 1, exitStr⟩]).2[0]?
      = some none
    ∧ (add_trade_profit (defaultCfg 1 1 0 0) [⟨100, 1, buyStr⟩, ⟨110, 1, exitStr⟩]).2[1]?
      = some (some ((((add_trade_profit (defaultCfg 1 1 0 0)
          [⟨100, 1, buyStr⟩, ⟨110, 1, exitStr⟩]).1.take 2).reduceOption).sum)) := by
  have h1 : profitStep (defaultCfg 1 1 0 0) none ⟨100, 1, buyStr⟩
      = (some ⟨1, 100, 1⟩, none) := profitStep_entry_flat _ _ 1 (by decide)
  have h2 : profitStep (defaultCfg 1 1 0 0) (some ⟨1, 100, 1⟩) ⟨110, 1, exitStr⟩
      = (none, some (((110 - 100) * ((1 : Int) : ℚ) * (1 * 1) - (0 + 1 * 0)) * 1)) :=
    profitStep_exit_in_pos 1 1 0 0 ⟨1, 100, 1⟩ ⟨110, 1, exitStr⟩ (by decide)
  have hp : (add_trade_profit (defaultCfg 1 1 0 0) [⟨100, 1, buyStr⟩, ⟨110, 1, exitStr⟩]).1[0]?
      = some none := by
    simp [add_trade_profit, profitsOf, profitScan, h1, h2]
  have hq : (add_trade_profit (defaultCfg 1 1 0 0) [⟨100, 1, buyStr⟩, ⟨110, 1, exitStr⟩]).1[1]?
      = some (some (((110 - 100) * ((1 : Int) : ℚ) * (1 * 1) - (0 + 1 * 0)) * 1)) := by
    simp [add_trade_profit, profitsOf, profitScan, h1, h2]
  exact ⟨(running_profit_defined_iff_profit_defined (defaultCfg 1 1 0 0)
            [⟨100, 1, buyStr⟩, ⟨110, 1, exitStr⟩] 0).1 hp,
         (running_profit_defined_iff_profit_defined (defaultCfg 1 1 0 0)
            [⟨100, 1, buyStr⟩, ⟨110, 1, exitStr⟩] 1).2 _ hq⟩

/-- Counterexample to C8 as stated: the claim says `running_profit` is
defined on every row with absent profits counted as zero, so the entry row
of [buy@100, exit@110] should carry running profit 0; the code leaves NaN
there (`cumsum` with its default `skipna=True` keeps NaN positions NaN). -/
theorem running_profit_claim_counterexample :
    ¬ (∀ x ∈ (add_trade_profit (defaultCfg 1 1 0 0)
         [⟨100, 1, buyStr⟩, ⟨110, 1, exitStr⟩]).2, x.isSome) := by
  intro hall
  have h1 : profitStep (defaultCfg 1 1 0 0) none ⟨100, 1, buyStr⟩
      = (some ⟨1, 100, 1⟩, none) := profitStep_entry_flat _ _ 1 (by decide)
  have h2 : profitStep (defaultCfg 1 1 0 0) (some ⟨1, 100, 1⟩) ⟨110, 1, exitStr⟩
      = (none, some (((110 - 100) * ((1 : Int) : ℚ) * (1 * 1) - (0 + 1 * 0)) * 1)) :=
    profitStep_exit_in_pos 1 1 0 0 ⟨1, 100, 1⟩ ⟨110, 1, exitStr⟩ (by decide)
  have hmem : (none : Option ℚ) ∈ (add_trade_profit (defaultCfg 1 1 0 0)
      [⟨100, 1, buyStr⟩, ⟨110, 1, exitStr⟩]).2 := by
    simp [add_trade_profit, profitsOf, profitScan, h1, h2, cumsumSkipNA]
  simpa using hall none hmem

end ProfitTheorems

section TrimTheorems

lemma findIdx?_found (p : α → Bool) (l : List α) (i : Nat)
    (h : l.findIdx? p = some i) : ∃ x, l[i]? = some x ∧ p x = true := by
  rcases List.findIdx?_eq_some_iff_getElem.mp h with ⟨hi, hp, -⟩
  exact ⟨l.get ⟨i, hi⟩, by simp, by simpa using hp⟩

lemma findIdx?_min (p : α → Bool) (l : List α) (i : Nat)
    (h : l.findIdx? p = some i) :
    ∀ k x, k < i → l[k]? = some x → p x = false := by
  rcases List.findIdx?_eq_some_iff_getElem.mp h with ⟨hi, -, hmin⟩
  intro k x hk hx
  rcases List.getElem?_eq_some_iff.mp hx with ⟨hkl, rfl⟩
  simpa using hmin k hk

lemma findIdx?_of_found_min (p : α → Bool) (l : List α) (i : Nat) (x : α)
    (h1 : l[i]? = some x) (hp : p x = true)
    (hmin : ∀ k y, k < i → l[k]? = some y → p y = false) :
    l.findIdx? p = some i := by
  rcases List.getElem?_eq_some_iff.mp h1 with ⟨hi, rfl⟩
  rw [List.findIdx?_eq_some_iff_getElem]
  refine ⟨hi, hp, fun j hj => ?_⟩
  have := hmin j (l.get ⟨j, by omega⟩) hj (by simp)
  simpa using this

lemma lastIdx?_none_of_all (p : α → Bool) (l : List α)
    (h : ∀ x ∈ l, p x = false) : lastIdx? p l = none := by
  unfold lastIdx?
  rw [List.findIdx?_eq_none_iff.mpr (fun x hx => h x (List.mem_reverse.mp hx))]

lemma lastIdx?_found (p : α → Bool) (l : List α) (j : Nat)
    (h : lastIdx? p l = some j) :
    ∃ x, l[j]? = some x ∧ p x = true := by
  unfold lastIdx? at h
  cases hf : l.reverse.findIdx? p with
  | none => rw [hf] at h; simp at h
  | some k =>
    rw [hf] at h
    have hj : j = l.length - 1 - k := by simpa using h.symm
    rcases findIdx?_found p l.reverse k hf with ⟨x, hx, hp⟩
    have hk : k < l.length := by
      rcases List.getElem?_eq_some_iff.mp hx with ⟨hk, -⟩
      simpa using hk
    rw [List.getElem?_reverse (by simpa using hk)] at hx
    exact ⟨x, by rw [hj]; simpa using hx, hp⟩

lemma lastIdx?_max (p : α → Bool) (l : List α) (j : Nat)
    (h : lastIdx? p l = some j) :
    ∀ k x, j < k → l[k]? = some x → p x = false := by
  unfold lastIdx? at h
  cases hf : l.reverse.findIdx? p with
  | none => rw [hf] at h; simp at h
  | some k =>
    rw [hf] at h
    have hj : j = l.length - 1 - k := by simpa using h.symm
    have hk : k < l.length := by
      rcases findIdx?_found p l.reverse k hf with ⟨x, hx, -⟩
      rcases List.getElem?_eq_some_iff.mp hx with ⟨hk, -⟩
      simpa using hk
    intro m x hgt hmx
    have hm : m < l.length := by
      rcases List.getElem?_eq_some_iff.mp hmx with ⟨hm, -⟩
      exact hm
    have hmk : l.length - 1 - m < k := by omega
    have hrev : l.reverse[l.length - 1 - m]? = l[m]? := by
      rw [List.getElem?_reverse (by simpa using (show l.length - 1 - m < l.length by omega))]
      congr 1
      omega
    exact findIdx?_min p l.reverse k hf (l.length - 1 - m) x hmk (by rw [hrev]; exact hmx)

lemma lastIdx?_of_found_max (p : α → Bool) (l : List α) (j : Nat) (x : α)
    (h1 : l[j]? = some x) (hp : p x = true)
    (hmax : ∀ k y, j < k → l[k]? = some y → p y = false) :
    lastIdx? p l = some j := by
  have hj : j < l.length := by
    rcases List.getElem?_eq_some_iff.mp h1 with ⟨hj, -⟩
    exact hj
  have hfind : l.reverse.findIdx? p = some (l.length - 1 - j) := by
    apply findIdx?_of_found_min p l.reverse (l.length - 1 - j) x
    · rw [List.getElem?_reverse (by simpa using (show l.length - 1 - j < l.length by omega))]
      have : l.length - 1 - (l.length - 1 - j) = j := by omega
      rw [this]
      exact h1
    · exact hp
    · intro k y hk hky
      have hkl : k < l.length := by
        have := List.getElem?_eq_some_iff.mp hky
        rcases this with ⟨hkl, -⟩
        simpa using hkl
      rw [List.getElem?_reverse (by simpa using hkl)] at hky
      exact hmax (l.length - 1 - k) y (by omega) hky
  unfold lastIdx?
  rw [hfind]
  have harith : l.length - 1 - (l.length - 1 - j) = j := by omega
  simp [harith]

lemma trimWith_of_no_entry (pe px : α → Bool) (l : List α)
    (h : ∀ a ∈ l, pe a = false) : trimWith pe px l = [] := by
  simp [trimWith, List.findIdx?_eq_none_iff.mpr h]

lemma trimWith_of_no_exit (pe px : α → Bool) (l : List α) (i : Nat)
    (hfirst : l.findIdx? pe = some i)
    (hnoexit : ∀ k x, i ≤ k → l[k]? = some x → px x = false) :
    trimWith pe px l = [] := by
  have hnone : lastIdx? px (l.drop i) = none := by
    apply lastIdx?_none_of_all
    intro x hx
    rcases List.mem_iff_getElem?.mp hx with ⟨m, hm⟩
    rw [List.getElem?_drop] at hm
    exact hnoexit (i + m) x (by omega) hm
  simp [trimWith, hfirst, hnone]

lemma trimWith_eq_slice (pe px : α → Bool) (l : List α) (i j : Nat) (x : α)
    (hfirst : l.findIdx? pe = some i) (hij : i ≤ j)
    (hjx : l[j]? = some x) (hpx : px x = true)
    (hlast : ∀ k y, j < k → l[k]? = some y → px y = false) :
    trimWith pe px l = (l.drop i).take (j - i + 1) := by
  have hsome : lastIdx? px (l.drop i) = some (j - i) := by
    apply lastIdx?_of_found_max px (l.drop i) (j - i) x
    · rw [List.getElem?_drop]
      have : i + (j - i) = j := by omega
      rw [this]
      exact hjx
    · exact hpx
    · intro k y hk hky
      rw [List.getElem?_drop] at hky
      exact hlast (i + k) y (by omega) hky
  simp [trimWith, hfirst, hsome]

lemma trimWith_idem (pe px : α → Bool) (l : List α) :
    trimWith pe px (trimWith pe px l) = trimWith pe px l := by
  cases hf : l.findIdx? pe with
  | none => simp [trimWith, hf]
  | some i =>
    cases hl : lastIdx? px (l.drop i) with
    | none => simp [trimWith, hf, hl]
    | some j =>
      have res_eq : trimWith pe px l = (l.drop i).take (j + 1) := by
        simp [trimWith, hf, hl]
      rcases findIdx?_found pe l i hf with ⟨x0, hx0, hpe0⟩
      rcases lastIdx?_found px (l.drop i) j hl with ⟨xj, hxj, hpxj⟩
      have hjd : j < (l.drop i).length := by
        rcases List.getElem?_eq_some_iff.mp hxj with ⟨hjd, -⟩
        exact hjd
      have hrlen : ((l.drop i).take (j + 1)).length = j + 1 := by
        simp only [List.length_take]
        omega
      have hr0 : ((l.drop i).take (j + 1))[0]? = some x0 := by
        rw [List.getElem?_take_of_lt (by omega), List.getElem?_drop]
        simpa using hx0
      have hfirst2 : ((l.drop i).take (j + 1)).findIdx? pe = some 0 :=
        findIdx?_of_found_min pe _ 0 x0 hr0 hpe0 (fun k y hk => by omega)
      have hrj : ((l.drop i).take (j + 1))[j]? = some xj := by
        rw [List.getElem?_take_of_lt (by omega)]
        exact hxj
      have hlast2 : lastIdx? px ((l.drop i).take (j + 1)) = some j := by
        apply lastIdx?_of_found_max px _ j xj hrj hpxj
        intro k y hk hky
        rcases List.getElem?_eq_some_iff.mp hky with ⟨hkl, -⟩
        rw [hrlen] at hkl
        omega
      rw [res_eq]
      simp only [trimWith, hfirst2, List.drop_zero, hlast2]
      exact List.take_of_length_le (by omega)

/-- C7: trimming is idempotent — applying `trim_to_closed_trades` to an
already trimmed table returns it unchanged. -/
theorem trim_to_closed_trades_idempotent :
    ∀ (t u : Table), trimToClosedTradesTable t = .ok u →
      trimToClosedTradesTable u = .ok u := by
  intro t u h
  rw [trimToClosedTradesTable] at h
  by_cases hcol : tradeTypeCol ∈ t.cols
  · rw [if_neg (by simpa using hcol)] at h
    injection h with hu
    subst hu
    rw [trimToClosedTradesTable, if_neg (by simpa using hcol)]
    simp only [trim_to_closed_trades, trimWith_idem]
  · rw [if_pos (by simpa using hcol)] at h
    simp at h

/-- C3: for a normalized ascending stream with a trade-type column — if no
row's normalised token is an entry, the trim returns the empty table with
the same schema; if the first entry sits at position `i` and no row at or
after `i` carries the exit token, the trim returns the empty table; and if
the last exit at or after `i` sits at position `j`, the trim returns
exactly the inclusive contiguous slice of rows from `i` through `j`. -/
theorem trim_window_characterisation :
    ∀ (t : Table), tradeTypeCol ∈ t.cols →
    ((∀ r ∈ t.rows, isEntryOf [buyStr, sellStr] (cellTok (getCell r tradeTypeCol)) = false) →
       trimToClosedTradesTable t = .ok ⟨t.cols, []⟩)
    ∧ ∀ i r, t.rows[i]? = some r →
        isEntryOf [buyStr, sellStr] (cellTok (getCell r tradeTypeCol)) = true →
        (∀ k r2, k < i → t.rows[k]? = some r2 →
           isEntryOf [buyStr, sellStr] (cellTok (getCell r2 tradeTypeCol)) = false) →
        ((∀ k r2, i ≤ k → t.rows[k]? = some r2 →
            isExitOf exitStr (cellTok (getCell r2 tradeTypeCol)) = false) →
           trimToClosedTradesTable t = .ok ⟨t.cols, []⟩)
        ∧ ∀ j r3, i ≤ j → t.rows[j]? = some r3 →
            isExitOf exitStr (cellTok (getCell r3 tradeTypeCol)) = true →
            (∀ k r4, j < k → t.rows[k]? = some r4 →
               isExitOf exitStr (cellTok (getCell r4 tradeTypeCol)) = false) →
            trimToClosedTradesTable t
              = .ok ⟨t.cols, (t.rows.drop i).take (j - i + 1)⟩ := by
  intro t hcol
  have hopen : trimToClosedTradesTable t
      = .ok ⟨t.cols, trim_to_closed_trades
          (fun r => cellTok (getCell r tradeTypeCol)) [buyStr, sellStr] exitStr t.rows⟩ := by
    rw [trimToClosedTradesTable, if_neg (by simpa using hcol)]
  constructor
  · intro hno
    rw [hopen]
    have hz := trimWith_of_no_entry
      (fun a => isEntryOf [buyStr, sellStr] (cellTok (getCell a tradeTypeCol)))
      (fun a => isExitOf exitStr (cellTok (getCell a tradeTypeCol))) t.rows hno
    simp [trim_to_closed_trades, hz]
  · intro i r hir hent hmin
    have hfirst : t.rows.findIdx?
        (fun a => isEntryOf [buyStr, sellStr] (cellTok (getCell a tradeTypeCol))) = some i :=
      findIdx?_of_found_min _ _ i r hir hent hmin
    constructor
    · intro hnoexit
      rw [hopen]
      have hz := trimWith_of_no_exit
        (fun a => isEntryOf [buyStr, sellStr] (cellTok (getCell a tradeTypeCol)))
        (fun a => isExitOf exitStr (cellTok (getCell a tradeTypeCol))) t.rows i hfirst hnoexit
      simp [trim_to_closed_trades, hz]
    · intro j r3 hij hjr hexit hlast
      rw [hopen]
      have hz := trimWith_eq_slice
        (fun a => isEntryOf [buyStr, sellStr] (cellTok (getCell a tradeTypeCol)))
        (fun a => isExitOf exitStr (cellTok (getCell a tradeTypeCol))) t.rows i j r3
        hfirst hij hjr hexit hlast
      simp [trim_to_closed_trades, hz]

/-- Witness for C3 on the stream [buy, exit, exit]: first entry at 0, last
exit at 2, trim keeps the whole inclusive slice. -/
theorem trim_window_characterisation_witness :
    trimToClosedTradesTable
        ⟨[tradeTypeCol],
         [[(tradeTypeCol, .str buyStr)], [(tradeTypeCol, .str exitStr)],
          [(tradeTypeCol, .str exitStr)]]⟩
      = .ok ⟨[tradeTypeCol],
         (([[(tradeTypeCol, .str buyStr)], [(tradeTypeCol, .str exitStr)],
            [(tradeTypeCol, .str exitStr)]] : List TblRow).drop 0).take (2 - 0 + 1)⟩ :=
  ((trim_window_characterisation
      ⟨[tradeTypeCol],
       [[(tradeTypeCol, .str buyStr)], [(tradeTypeCol, .str exitStr)],
        [(tradeTypeCol, .str exitStr)]]⟩ (by decide)).2
    0 [(tradeTypeCol, .str buyStr)] (by decide) (by decide)
    (fun k r2 hk _ => absurd hk (Nat.not_lt_zero k))).2
    2 [(tradeTypeCol, .str exitStr)] (by omega) (by decide) (by decide)
    (fun k r4 hk hkr => by
      rw [List.getElem?_eq_none (by simpa using (show 3 ≤ k by omega))] at hkr
      cases hkr)

/-- Witness for C7 at a concrete one-trade stream. -/
theorem trim_to_closed_trades_idempotent_witness :
    trimToClosedTradesTable
        ⟨[tradeTypeCol],
         [[(tradeTypeCol, .str buyStr)], [(tradeTypeCol, .str exitStr)]]⟩
      = .ok ⟨[tradeTypeCol],
         [[(tradeTypeCol, .str buyStr)], [(tradeTypeCol, .str exitStr)]]⟩ :=
  trim_to_closed_trades_idempotent
    ⟨[tradeTypeCol],
     [[(tradeTypeCol, .str buyStr)], [(tradeTypeCol, .str exitStr)]]⟩
    ⟨[tradeTypeCol],
     [[(tradeTypeCol, .str buyStr)], [(tradeTypeCol, .str exitStr)]]⟩
    (by decide)

end TrimTheorems

section FlipTheorems

lemma lowerC_eq_cases (a b : Nat) (h : lowerC a = b) :
    a = b ∨ (65 ≤ a ∧ a ≤ 90 ∧ a + 32 = b) := by
  cases hup : isUpperC a with
  | true =>
    simp only [lowerC, hup, if_true] at h
    simp only [isUpperC, Bool.and_eq_true, decide_eq_true_eq] at hup
    exact Or.inr ⟨hup.1, hup.2, h⟩
  | false =>
    simp only [lowerC, hup, if_false] at h
    exact Or.inl h

lemma lowerStr_buy_cases (t : PyStr) (h : lowerStr t = buyStr) :
    t = [98, 117, 121] ∨ t = [66, 117, 121] ∨ t = [98, 85, 121] ∨ t = [66, 85, 121]
    ∨ t = [98, 117, 89] ∨ t = [66, 117, 89] ∨ t = [98, 85, 89] ∨ t = [66, 85, 89] := by
  have hlen : t.length = 3 := by
    have := congrArg List.length h
    simpa [lowerStr] using this
  rcases t with _ | ⟨a, _ | ⟨b, _ | ⟨c, _ | ⟨d, t⟩⟩⟩⟩ <;> simp at hlen
  simp only [lowerStr, buyStr, List.map_cons, List.map_nil, List.cons.injEq,
    and_true] at h
  obtain ⟨h1, h2, h3⟩ := h
  have ha : a = 98 ∨ a = 66 := by
    rcases lowerC_eq_cases a 98 h1 with h' | ⟨u1, u2, u3⟩
    · exact Or.inl h'
    · right; omega
  have hb : b = 117 ∨ b = 85 := by
    rcases lowerC_eq_cases b 117 h2 with h' | ⟨u1, u2, u3⟩
    · exact Or.inl h'
    · right; omega
  have hc : c = 121 ∨ c = 89 := by
    rcases lowerC_eq_cases c 121 h3 with h' | ⟨u1, u2, u3⟩
    · exact Or.inl h'
    · right; omega
  rcases ha with rfl | rfl <;> rcases hb with rfl | rfl <;> rcases hc with rfl | rfl <;> decide

lemma lowerStr_sell_cases (t : PyStr) (h : lowerStr t = sellStr) :
    t = [115, 101, 108, 108] ∨ t = [83, 101, 108, 108]
    ∨ t = [115, 69, 108, 108] ∨ t = [83, 69, 108, 108]
    ∨ t = [115, 101, 76, 108] ∨ t = [83, 101, 76, 108]
    ∨ t = [115, 69, 76, 108] ∨ t = [83, 69, 76, 108]
    ∨ t = [115, 101, 108, 76] ∨ t = [83, 101, 108, 76]
    ∨ t = [115, 69, 108, 76] ∨ t = [83, 69, 108, 76]
    ∨ t = [115, 101, 76, 76] ∨ t = [83, 101, 76, 76]
    ∨ t = [115, 69, 76, 76] ∨ t = [83, 69, 76, 76] := by
  have hlen : t.length = 4 := by
    have := congrArg List.length h
    simpa [lowerStr] using this
  rcases t with _ | ⟨a, _ | ⟨b, _ | ⟨c, _ | ⟨d, _ | ⟨e, t⟩⟩⟩⟩⟩ <;> simp at hlen
  simp only [lowerStr, sellStr, List.map_cons, List.map_nil, List.cons.injEq,
    and_true] at h
  obtain ⟨h1, h2, h3, h4⟩ := h
  have ha : a = 115 ∨ a = 83 := by
    rcases lowerC_eq_cases a 115 h1 with h' | ⟨u1, u2, u3⟩
    · exact Or.inl h'
    · right; omega
  have hb : b = 101 ∨ b = 69 := by
    rcases lowerC_eq_cases b 101 h2 with h' | ⟨u1, u2, u3⟩
    · exact Or.inl h'
    · right; omega
  have hc : c = 108 ∨ c = 76 := by
    rcases lowerC_eq_cases c 108 h3 with h' | ⟨u1, u2, u3⟩
    · exact Or.inl h'
    · right; omega
  have hd : d = 108 ∨ d = 76 := by
    rcases lowerC_eq_cases d 108 h4 with h' | ⟨u1, u2, u3⟩
    · exact Or.inl h'
    · right; omega
  rcases ha with rfl | rfl <;> rcases hb with rfl | rfl <;> rcases hc with rfl | rfl <;>
    rcases hd with rfl | rfl <;> decide

lemma flipToken_flipToken (t : PyStr) (hs : stripStr t = t)
    (hc : lowerStr t = buyStr ∨ lowerStr t = sellStr →
          isUpperStr t = true ∨ isLowerStr t = true ∨ isTitleStr t = true) :
    flipToken (flipToken t) = t := by
  by_cases hb : lowerStr t = buyStr
  · have hcs := hc (Or.inl hb)
    rcases lowerStr_buy_cases t hb with rfl | rfl | rfl | rfl | rfl | rfl | rfl | rfl <;>
      (revert hcs; decide)
  · by_cases hse : lowerStr t = sellStr
    · have hcs := hc (Or.inr hse)
      rcases lowerStr_sell_cases t hse with
        rfl | rfl | rfl | rfl | rfl | rfl | rfl | rfl |
        rfl | rfl | rfl | rfl | rfl | rfl | rfl | rfl <;>
        (revert hcs; decide)
    · have h1 : flipToken t = t := by
        simp [flipToken, flipTokenWith, hs, hb, hse,
          show lowerStr buyStr = buyStr from by decide,
          show lowerStr sellStr = sellStr from by decide]
      rw [h1, h1]

/-- C6 (corrected): on a trade-type column whose tokens carry no
leading/trailing whitespace and whose buy/sell tokens are all-uppercase,
all-lowercase or title-case, flipping twice returns the original tokens,
and a flip never alters a token whose lowercase form is the exit token;
a single flip swaps buy↔sell — a token whose lowercase form is `buy`
flips to one whose lowercase form is `sell` and conversely — while
preserving the template's casing pattern (the flipped token is
all-uppercase / all-lowercase / title-case exactly when the original
was).  Any other casing receives the replacement word as-is, so on such
tokens, or on tokens padded with whitespace — which the flip strips —
the double flip returns the canonicalised token instead of the
original. -/
theorem apply_flips_involution_corrected :
    ∀ (col : List PyStr),
    (∀ s ∈ col, stripStr s = s ∧
       (lowerStr s = buyStr ∨ lowerStr s = sellStr →
        isUpperStr s = true ∨ isLowerStr s = true ∨ isTitleStr s = true)) →
    apply_flips (apply_flips col) = col
    ∧ (∀ s ∈ col, lowerStr s = exitStr → flipToken s = s)
    ∧ (∀ s ∈ col, lowerStr s = buyStr →
        lowerStr (flipToken s) = sellStr
        ∧ isUpperStr (flipToken s) = isUpperStr s
        ∧ isLowerStr (flipToken s) = isLowerStr s
        ∧ isTitleStr (flipToken s) = isTitleStr s)
    ∧ ∀ s ∈ col, lowerStr s = sellStr →
        lowerStr (flipToken s) = buyStr
        ∧ isUpperStr (flipToken s) = isUpperStr s
        ∧ isLowerStr (flipToken s) = isLowerStr s
        ∧ isTitleStr (flipToken s) = isTitleStr s := by
  intro col hcol
  refine ⟨?_, ?_, ?_, ?_⟩
  · unfold apply_flips
    rw [List.map_map]
    have hid : ∀ s ∈ col, (flipToken ∘ flipToken) s = s := fun s hsm =>
      flipToken_flipToken s (hcol s hsm).1 (hcol s hsm).2
    calc col.map (flipToken ∘ flipToken) = col.map id := List.map_congr_left hid
      _ = col := List.map_id col
  · intro s hsm hlow
    have hs := (hcol s hsm).1
    have hb : ¬ lowerStr s = buyStr := by rw [hlow]; decide
    have hse : ¬ lowerStr s = sellStr := by rw [hlow]; decide
    simp [flipToken, flipTokenWith, hs, hb, hse,
      show lowerStr buyStr = buyStr from by decide,
      show lowerStr sellStr = sellStr from by decide]
  · intro s hsm hbuy
    have hcs := (hcol s hsm).2 (Or.inl hbuy)
    rcases lowerStr_buy_cases s hbuy with rfl | rfl | rfl | rfl | rfl | rfl | rfl | rfl <;>
      (revert hcs; decide)
  · intro s hsm hsell
    have hcs := (hcol s hsm).2 (Or.inr hsell)
    rcases lowerStr_sell_cases s hsell with
      rfl | rfl | rfl | rfl | rfl | rfl | rfl | rfl |
      rfl | rfl | rfl | rfl | rfl | rfl | rfl | rfl <;>
      (revert hcs; decide)

/-- Witness for C6 (corrected) on the column [buy, exit, BUY, sell]: the
double flip restores the column, the exit token is untouched, and a single
flip swaps `buy`→`sell` (lowercase pattern kept), `BUY`→(uppercase `sell`)
and `sell`→`buy`. -/
theorem apply_flips_involution_corrected_witness :
    apply_flips (apply_flips [buyStr, exitStr, [66, 85, 89], sellStr])
      = [buyStr, exitStr, [66, 85, 89], sellStr]
    ∧ flipToken exitStr = exitStr
    ∧ lowerStr (flipToken buyStr) = sellStr
    ∧ isLowerStr (flipToken buyStr) = isLowerStr buyStr
    ∧ lowerStr (flipToken [66, 85, 89]) = sellStr
    ∧ isUpperStr (flipToken [66, 85, 89]) = isUpperStr [66, 85, 89]
    ∧ lowerStr (flipToken sellStr) = buyStr :=
  ⟨(apply_flips_involution_corrected [buyStr, exitStr, [66, 85, 89], sellStr] (by decide)).1,
   (apply_flips_involution_corrected [buyStr, exitStr, [66, 85, 89], sellStr] (by decide)).2.1
     exitStr (by decide) (by decide),
   ((apply_flips_involution_corrected [buyStr, exitStr, [66, 85, 89], sellStr] (by decide)).2.2.1
     buyStr (by decide) (by decide)).1,
   ((apply_flips_involution_corrected [buyStr, exitStr, [66, 85, 89], sellStr] (by decide)).2.2.1
     buyStr (by decide) (by decide)).2.2.1,
   ((apply_flips_involution_corrected [buyStr, exitStr, [66, 85, 89], sellStr] (by decide)).2.2.1
     [66, 85, 89] (by decide) (by decide)).1,
   ((apply_flips_involution_corrected [buyStr, exitStr, [66, 85, 89], sellStr] (by decide)).2.2.1
     [66, 85, 89] (by decide) (by decide)).2.1,
   ((apply_flips_involution_corrected [buyStr, exitStr, [66, 85, 89], sellStr] (by decide)).2.2.2
     sellStr (by decide) (by decide)).1⟩

/-- Counterexample to C6 as stated: the flip strips whitespace, so the
token ` buy ` double-flips to `buy`, not back to ` buy `, and the
whitespace-padded exit token ` exit ` is altered (stripped) by a single
flip. -/
theorem apply_flips_involution_counterexample :
    apply_flips (apply_flips [[32, 98, 117, 121, 32]]) ≠ [[32, 98, 117, 121, 32]]
    ∧ flipToken [32, 101, 120, 105, 116, 32] ≠ [32, 101, 120, 105, 116, 32] := by
  exact ⟨by decide, by decide⟩

end FlipTheorems

section FilterTheorems

/-- C4 (code bug): the source's `filter_alert_data` passes `df` — the
original argument — to every filter instead of the previous stage's
`output`, so when several filters are requested only the last one in the
fixed order takes effect.  On the two-row stream
[Mon 12:00, Tue 18:00] with the time window 11:00–13:00 and the weekday
set {Tue} requested together, the code keeps the Tuesday row that lies
outside the time window, while the sequential-narrowing composite the
spec describes (modelled as `filterAlertDataSeq`) keeps no row. -/
theorem filter_alert_data_applies_only_last_filter :
    filter_alert_data [⟨12 * 3600, 0, 1, 0⟩, ⟨18 * 3600, 1, 1, 0⟩]
        { start_time := some (11, 0), end_time := some (13, 0), days := some [.int 1] }
      = .ok [⟨18 * 3600, 1, 1, 0⟩]
    ∧ filterAlertDataSeq [⟨12 * 3600, 0, 1, 0⟩, ⟨18 * 3600, 1, 1, 0⟩]
        { start_time := some (11, 0), end_time := some (13, 0), days := some [.int 1] }
      = .ok ([] : List Ts) := by
  exact ⟨by decide, by decide⟩

/-- C9 (corrected): supplying only one of start_time/end_time fails the
model validation with a ValueError before any row processing; but
supplying only one of start_date/end_date does not fail — validation
passes (when the remaining checks pass) and the date filter is silently
skipped, the filtering proceeding exactly as if no date bound were
given. -/
theorem paired_bounds_validation_corrected :
    (∀ p : FilterParams, p.start_time.isSome ≠ p.end_time.isSome →
       checkTimeAndDateConsistency p = .error .valueError)
    ∧ (∀ p : FilterParams, p.start_time.isSome = p.end_time.isSome →
        p.start_date = none ∨ p.end_date = none →
        checkTimeAndDateConsistency p = .ok p)
    ∧ ∀ (p : FilterParams) (df : List Ts),
        p.start_date = none ∨ p.end_date = none →
        filter_alert_data df (toFilterKwargs p)
          = filter_alert_data df
              (toFilterKwargs { p with start_date := none, end_date := none }) := by
  refine ⟨?_, ?_, ?_⟩
  · intro p hne
    simp [checkTimeAndDateConsistency, hne]
  · intro p heq hdate
    rcases hdate with h | h
    · cases he2 : p.end_date <;> simp [checkTimeAndDateConsistency, heq, h, he2]
    · cases hs2 : p.start_date <;> simp [checkTimeAndDateConsistency, heq, h, hs2]
  · intro p df hdate
    have hkw : toFilterKwargs p
        = toFilterKwargs { p with start_date := none, end_date := none } := by
      rcases hdate with h | h <;> simp [toFilterKwargs, h]
    rw [hkw]

/-- Witness for C9 (corrected): only start_time given fails validation;
only start_date given passes validation and filters like the
date-bound-free configuration. -/
theorem paired_bounds_validation_corrected_witness :
    checkTimeAndDateConsistency
        ({ start_time := some (9, 30) } : FilterParams) = .error .valueError
    ∧ checkTimeAndDateConsistency
        ({ start_date := some 0 } : FilterParams) = .ok { start_date := some 0 }
    ∧ filter_alert_data [⟨0, 0, 1, 0⟩]
        (toFilterKwargs ({ start_date := some 0 } : FilterParams))
      = filter_alert_data [⟨0, 0, 1, 0⟩]
          (toFilterKwargs
            { ({ start_date := some 0 } : FilterParams) with
                start_date := none, end_date := none }) :=
  ⟨paired_bounds_validation_corrected.1 { start_time := some (9, 30) } (by decide),
   paired_bounds_validation_corrected.2.1 { start_date := some 0 } rfl (Or.inr rfl),
   paired_bounds_validation_corrected.2.2 { start_date := some 0 } [⟨0, 0, 1, 0⟩]
     (Or.inr rfl)⟩

/-- Counterexample to C9 as stated: the configuration supplying only
start_date (no end_date) does not fail with a validation error — the model
validator accepts it, and filtering runs to completion, returning the rows
unchanged. -/
theorem paired_bounds_validation_counterexample :
    checkTimeAndDateConsistency
        ({ start_date := some 0 } : FilterParams) = .ok { start_date := some 0 }
    ∧ filter_alert_data [⟨0, 0, 1, 0⟩]
        (toFilterKwargs ({ start_date := some 0 } : FilterParams))
      = .ok [⟨0, 0, 1, 0⟩] := by
  exact ⟨by decide, by decide⟩

end FilterTheorems

section SplitterTheorems

/-- C5: in a multi-strategy batch, a strategy whose sub-stream fails the
pipeline is simply omitted from the result map, and every other strategy's
entry is exactly what it would be if the failing strategy's rows were
absent from the batch; strategies whose pipeline succeeds are present. -/
theorem per_strategy_failure_isolation :
    ∀ (rows : List RawRow) (bad : PyStr),
    (∀ e, clean_filterable_json_df_pipe (split_data_by_name rows bad) = .error e →
       _process_and_split_data rows bad = none)
    ∧ (∀ tb, split_data_by_name rows bad ≠ [] →
        clean_filterable_json_df_pipe (split_data_by_name rows bad) = .ok tb →
        _process_and_split_data rows bad = some tb)
    ∧ ∀ name, name ≠ bad →
        _process_and_split_data rows name
          = _process_and_split_data
              (rows.filter (fun r => decide (r.name ≠ bad))) name := by
  intro rows bad
  refine ⟨?_, ?_, ?_⟩
  · intro e he
    unfold _process_and_split_data
    by_cases hemp : split_data_by_name rows bad = []
    · rw [if_pos hemp]
    · rw [if_neg hemp, he]
      rfl
  · intro tb hne hok
    unfold _process_and_split_data
    rw [if_neg hne, hok]
    rfl
  · intro name hname
    have hsplit : split_data_by_name (rows.filter (fun r => decide (r.name ≠ bad))) name
        = split_data_by_name rows name := by
      unfold split_data_by_name
      rw [List.filter_filter]
      congr 1
      funext r
      by_cases hr : r.name = name
      · simp [hr, hname]
      · simp [hr]
    unfold _process_and_split_data
    rw [hsplit]

/-- The three-strategy batch of the C5 example: strategies A and C carry
trade-type/price payloads, strategy B's payloads lack the trade-type
key. -/
def batchABC : List RawRow :=
  [⟨[65], 1, [(tradeTypeCol, .str buyStr), (priceCol, .num 100)]⟩,
   ⟨[66], 1, [(priceCol, .num 5)]⟩,
   ⟨[67], 1, [(tradeTypeCol, .str buyStr), (priceCol, .num 7)]⟩,
   ⟨[65], 2, [(tradeTypeCol, .str exitStr), (priceCol, .num 110)]⟩,
   ⟨[66], 2, [(priceCol, .num 6)]⟩,
   ⟨[67], 2, [(tradeTypeCol, .str exitStr), (priceCol, .num 8)]⟩]

/-- The processed table of strategy A in `batchABC`: its two payload rows
flattened, `Name`/`timestamp` columns attached, sorted ascending and
trimmed (the whole two-row window, buy then exit). -/
def tableA : Table :=
  ⟨[tradeTypeCol, priceCol, nameCol, timestampCol],
   [[(tradeTypeCol, .str buyStr), (priceCol, .num 100),
     (nameCol, .str [65]), (timestampCol, .num 1)],
    [(tradeTypeCol, .str exitStr), (priceCol, .num 110),
     (nameCol, .str [65]), (timestampCol, .num 2)]]⟩

/-- The processed table of strategy C in `batchABC`. -/
def tableC : Table :=
  ⟨[tradeTypeCol, priceCol, nameCol, timestampCol],
   [[(tradeTypeCol, .str buyStr), (priceCol, .num 7),
     (nameCol, .str [67]), (timestampCol, .num 1)],
    [(tradeTypeCol, .str exitStr), (priceCol, .num 8),
     (nameCol, .str [67]), (timestampCol, .num 2)]]⟩

/-- Witness for C5 on `batchABC`: strategy B (whose sub-stream lacks the
trade-type column) is absent from the result map, while the entries of A
and C are present — equal to their concrete processed tables — and equal
to their entries in the batch with B's rows removed. -/
theorem per_strategy_failure_isolation_witness :
    _process_and_split_data batchABC [66] = none
    ∧ _process_and_split_data batchABC [65] = some tableA
    ∧ _process_and_split_data batchABC [67] = some tableC
    ∧ _process_and_split_data batchABC [65]
      = _process_and_split_data
          (batchABC.filter (fun r => decide (r.name ≠ [66]))) [65]
    ∧ _process_and_split_data batchABC [67]
      = _process_and_split_data
          (batchABC.filter (fun r => decide (r.name ≠ [66]))) [67] :=
  ⟨(per_strategy_failure_isolation batchABC [66]).1 (.keyError tradeTypeCol) (by decide),
   (per_strategy_failure_isolation batchABC [65]).2.1 tableA (by decide) (by decide),
   (per_strategy_failure_isolation batchABC [67]).2.1 tableC (by decide) (by decide),
   (per_strategy_failure_isolation batchABC [66]).2.2 [65] (by decide),
   (per_strategy_failure_isolation batchABC [66]).2.2 [67] (by decide)⟩

end SplitterTheorems

section TableTheorems

/-- C10: with the default configuration (`qty_col = QUANTITY`), a table
holding price and trade-type columns but no `quantity` column makes
`add_trade_profit` raise the missing-qty-column KeyError up front, before
any row is processed; the documented quantity-defaults-to-1 behaviour is
what `qty_col = None` produces: the scan then runs with every quantity
equal to 1. -/
theorem default_qty_col_missing_raises :
    ∀ (t : Table) (cfg : ProfitCfg),
    priceCol ∈ t.cols → tradeTypeCol ∈ t.cols → quantityCol ∉ t.cols →
    addTradeProfitTable cfg priceCol tradeTypeCol (some quantityCol) t
      = .error (.keyError quantityCol)
    ∧ ∀ prices, colFloat t.rows priceCol = some prices →
        addTradeProfitTable cfg priceCol tradeTypeCol none t
          = .ok (add_trade_profit cfg ((t.rows.zip prices).map
              (fun rp => TRow.mk rp.2 1 (cellTok (getCell rp.1 tradeTypeCol))))) := by
  intro t cfg hp hs hq
  constructor
  · rw [addTradeProfitTable, if_neg (by simpa using hp), if_neg (by simpa using hs)]
    simp [hq]
  · intro prices hprices
    rw [addTradeProfitTable, if_neg (by simpa using hp), if_neg (by simpa using hs)]
    simp [hprices]

/-- Witness for C10 on a two-row table with price and trade-type columns
only. -/
theorem default_qty_col_missing_raises_witness :
    addTradeProfitTable (defaultCfg 1 1 0 0) priceCol tradeTypeCol (some quantityCol)
        ⟨[tradeTypeCol, priceCol],
         [[(tradeTypeCol, .str buyStr), (priceCol, .num 100)],
          [(tradeTypeCol, .str exitStr), (priceCol, .num 110)]]⟩
      = .error (.keyError quantityCol)
    ∧ addTradeProfitTable (defaultCfg 1 1 0 0) priceCol tradeTypeCol none
        ⟨[tradeTypeCol, priceCol],
         [[(tradeTypeCol, .str buyStr), (priceCol, .num 100)],
          [(tradeTypeCol, .str exitStr), (priceCol, .num 110)]]⟩
      = .ok (add_trade_profit (defaultCfg 1 1 0 0)
          ((([[(tradeTypeCol, .str buyStr), (priceCol, .num 100)],
              [(tradeTypeCol, .str exitStr), (priceCol, .num 110)]] : List TblRow).zip
              [100, 110]).map
            (fun rp => TRow.mk rp.2 1 (cellTok (getCell rp.1 tradeTypeCol))))) :=
  ⟨(default_qty_col_missing_raises
      ⟨[tradeTypeCol, priceCol],
       [[(tradeTypeCol, .str buyStr), (priceCol, .num 100)],
        [(tradeTypeCol, .str exitStr), (priceCol, .num 110)]]⟩
      (defaultCfg 1 1 0 0) (by decide) (by decide) (by decide)).1,
   (default_qty_col_missing_raises
      ⟨[tradeTypeCol, priceCol],
       [[(tradeTypeCol, .str buyStr), (priceCol, .num 100)],
        [(tradeTypeCol, .str exitStr), (priceCol, .num 110)]]⟩
      (defaultCfg 1 1 0 0) (by decide) (by decide) (by decide)).2
     [100, 110] (by decide)⟩

end TableTheorems
